import Mathlib

/-!
Verification of the spectral Maxwell-solver field module of fbpic
(`fbpic/fields/fields.py`).

The field arrays of the program are complex-valued.  The numerical payload of
each array operation is exact complex arithmetic with rational scalars, so the
grid operations are embedded over `CQ`, complex numbers with rational real and
imaginary parts.  This keeps every definition computable and every concrete
evaluation decidable.  Only the PSATD coefficient constructor, whose formulas
are trigonometric, is embedded over `ℝ`.

Arrays are embedded as functions from an abstract index type `ι` (a spectral
point `(kz, kr)` or a grid point `(z, r)`); the numpy whole-array expressions
of the source become pointwise definitions.  In-place mutation of a Python
object becomes a function from the old record to the new record.  A Python
`raise ValueError` becomes an `Except String` result.
-/

/-- Complex numbers with rational components: the exact-arithmetic carrier for
the field arrays of the program. -/
structure CQ where
  re : ℚ
  im : ℚ
deriving DecidableEq

namespace CQ

theorem ext {z w : CQ} (hre : z.re = w.re) (him : z.im = w.im) : z = w := by
  cases z; cases w; cases hre; cases him; rfl

def add (z w : CQ) : CQ := ⟨z.re + w.re, z.im + w.im⟩

def mul (z w : CQ) : CQ := ⟨z.re * w.re - z.im * w.im, z.re * w.im + z.im * w.re⟩

def neg (z : CQ) : CQ := ⟨-z.re, -z.im⟩

instance : Zero CQ := ⟨⟨0, 0⟩⟩

instance : One CQ := ⟨⟨1, 0⟩⟩

instance : Add CQ := ⟨add⟩

instance : Mul CQ := ⟨mul⟩

instance : Neg CQ := ⟨neg⟩

theorem add_assoc_def (a b c : CQ) : add (add a b) c = add a (add b c) := by
  apply ext <;> simp [add] <;> ring

theorem add_comm_def (a b : CQ) : add a b = add b a := by
  apply ext <;> simp [add] <;> ring

theorem zero_add_def (a : CQ) : add ⟨0, 0⟩ a = a := by
  apply ext <;> simp [add]

theorem add_zero_def (a : CQ) : add a ⟨0, 0⟩ = a := by
  apply ext <;> simp [add]

theorem neg_add_cancel_def (a : CQ) : add (neg a) a = ⟨0, 0⟩ := by
  apply ext <;> simp [add, neg]

theorem mul_assoc_def (a b c : CQ) : mul (mul a b) c = mul a (mul b c) := by
  apply ext <;> simp [mul] <;> ring

theorem mul_comm_def (a b : CQ) : mul a b = mul b a := by
  apply ext <;> simp [mul] <;> ring

theorem one_mul_def (a : CQ) : mul ⟨1, 0⟩ a = a := by
  apply ext <;> simp [mul]

theorem mul_one_def (a : CQ) : mul a ⟨1, 0⟩ = a := by
  apply ext <;> simp [mul]

theorem zero_mul_def (a : CQ) : mul ⟨0, 0⟩ a = ⟨0, 0⟩ := by
  apply ext <;> simp [mul]

theorem mul_zero_def (a : CQ) : mul a ⟨0, 0⟩ = ⟨0, 0⟩ := by
  apply ext <;> simp [mul]

theorem left_distrib_def (a b c : CQ) : mul a (add b c) = add (mul a b) (mul a c) := by
  apply ext <;> simp [mul, add] <;> ring

theorem right_distrib_def (a b c : CQ) : mul (add a b) c = add (mul a c) (mul b c) := by
  apply ext <;> simp [mul, add] <;> ring

instance : CommRing CQ where
  zero := 0
  one := 1
  add := (· + ·)
  mul := (· * ·)
  neg := (- ·)
  nsmul := nsmulRec
  zsmul := zsmulRec
  add_assoc := add_assoc_def
  add_comm := add_comm_def
  zero_add := zero_add_def
  add_zero := add_zero_def
  neg_add_cancel := neg_add_cancel_def
  mul_assoc := mul_assoc_def
  mul_comm := mul_comm_def
  one_mul := one_mul_def
  mul_one := mul_one_def
  zero_mul := zero_mul_def
  mul_zero := mul_zero_def
  left_distrib := left_distrib_def
  right_distrib := right_distrib_def

/-- The imaginary unit (`1.j` of the source). -/
def I : CQ := ⟨0, 1⟩

/-- Embedding of a rational (real) scalar into `CQ`. -/
def ofRat (q : ℚ) : CQ := ⟨q, 0⟩

/-- Division of a complex value by a real scalar. -/
def divQ (z : CQ) (q : ℚ) : CQ := ⟨z.re / q, z.im / q⟩

/-- Squared modulus `|z|²`. -/
def normSq (z : CQ) : ℚ := z.re ^ 2 + z.im ^ 2

@[simp] theorem add_re (z w : CQ) : (z + w).re = z.re + w.re := rfl
@[simp] theorem add_im (z w : CQ) : (z + w).im = z.im + w.im := rfl
@[simp] theorem mul_re (z w : CQ) : (z * w).re = z.re * w.re - z.im * w.im := rfl
@[simp] theorem mul_im (z w : CQ) : (z * w).im = z.re * w.im + z.im * w.re := rfl
@[simp] theorem neg_re (z : CQ) : (-z).re = -z.re := rfl
@[simp] theorem neg_im (z : CQ) : (-z).im = -z.im := rfl
@[simp] theorem zero_re : (0 : CQ).re = 0 := rfl
@[simp] theorem zero_im : (0 : CQ).im = 0 := rfl
@[simp] theorem one_re : (1 : CQ).re = 1 := rfl
@[simp] theorem one_im : (1 : CQ).im = 0 := rfl
@[simp] theorem I_re : I.re = 0 := rfl
@[simp] theorem I_im : I.im = 1 := rfl
@[simp] theorem ofRat_re (q : ℚ) : (ofRat q).re = q := rfl
@[simp] theorem ofRat_im (q : ℚ) : (ofRat q).im = 0 := rfl
@[simp] theorem divQ_re (z : CQ) (q : ℚ) : (z.divQ q).re = z.re / q := rfl
@[simp] theorem divQ_im (z : CQ) (q : ℚ) : (z.divQ q).im = z.im / q := rfl

@[simp] theorem sub_re (z w : CQ) : (z - w).re = z.re - w.re := by
  rw [sub_eq_add_neg, add_re, neg_re]; ring

@[simp] theorem sub_im (z w : CQ) : (z - w).im = z.im - w.im := by
  rw [sub_eq_add_neg, add_im, neg_im]; ring

theorem eq_iff {z w : CQ} : z = w ↔ z.re = w.re ∧ z.im = w.im :=
  ⟨fun h => by cases h; exact ⟨rfl, rfl⟩, fun h => ext h.1 h.2⟩

end CQ

/-!
## `SpectralGrid` (class `SpectralGrid` of the source)

Field and source arrays on the `(kz, kr)` grid for one azimuthal mode, plus
the precomputed `inv_k2` array.  The spectral low-pass `filter_array` (a
transcendental weight array used only by `SpectralGrid.filter`) is outside
the claims under verification and is not carried in the record.
-/

/-- The `inv_k2` array computed in `SpectralGrid.__init__`:
`1/(kz²+kr²)` with the entry forced to `0` (not `1/0`) where
`kz == 0` and `kr == 0`. -/
def invK2 {ι : Type} (kz kr : ι → ℚ) : ι → ℚ := fun pt =>
  if kz pt = 0 ∧ kr pt = 0 then 0 else (kz pt ^ 2 + kr pt ^ 2)⁻¹

/-- Spectral-grid state for one azimuthal mode (class `SpectralGrid`). -/
structure SpectralGrid (ι : Type) where
  m : ℕ
  kz : ι → ℚ
  kr : ι → ℚ
  Ep : ι → CQ
  Em : ι → CQ
  Ez : ι → CQ
  Bp : ι → CQ
  Bm : ι → CQ
  Bz : ι → CQ
  Jp : ι → CQ
  Jm : ι → CQ
  Jz : ι → CQ
  rho_prev : ι → CQ
  rho_next : ι → CQ
  F : ι → CQ
  inv_k2 : ι → ℚ

namespace SpectralGrid

variable {ι : Type}

/-- `SpectralGrid.__init__`: all field arrays allocated to zero and
`inv_k2` precomputed from the wavenumber meshes. -/
def init (kz kr : ι → ℚ) (m : ℕ) : SpectralGrid ι where
  m := m
  kz := kz
  kr := kr
  Ep := fun _ => 0
  Em := fun _ => 0
  Ez := fun _ => 0
  Bp := fun _ => 0
  Bm := fun _ => 0
  Bz := fun _ => 0
  Jp := fun _ => 0
  Jm := fun _ => 0
  Jz := fun _ => 0
  rho_prev := fun _ => 0
  rho_next := fun _ => 0
  F := fun _ => 0
  inv_k2 := invK2 kz kr

/-- `SpectralGrid.correct_currents` (CPU branch): compute the scratch array
`F = -inv_k2 * ((rho_next - rho_prev)*inv_dt + i*kz*Jz + kr*(Jp - Jm))`
and add the gradient-like correction to `Jp`, `Jm`, `Jz`. -/
def correct_currents (s : SpectralGrid ι) (dt : ℚ) : SpectralGrid ι :=
  let inv_dt : ℚ := 1 / dt
  let Fnew : ι → CQ := fun pt =>
    -(CQ.ofRat (s.inv_k2 pt)) *
      ((s.rho_next pt - s.rho_prev pt) * CQ.ofRat inv_dt
        + CQ.I * CQ.ofRat (s.kz pt) * s.Jz pt
        + CQ.ofRat (s.kr pt) * (s.Jp pt - s.Jm pt))
  { s with
    F := Fnew
    Jp := fun pt => s.Jp pt + CQ.ofRat (1/2 * s.kr pt) * Fnew pt
    Jm := fun pt => s.Jm pt + CQ.ofRat (-(1/2) * s.kr pt) * Fnew pt
    Jz := fun pt => s.Jz pt + -CQ.I * CQ.ofRat (s.kz pt) * Fnew pt }

/-- `SpectralGrid.push_rho`: `rho_prev ← rho_next; rho_next ← 0`. -/
def push_rho (s : SpectralGrid ι) : SpectralGrid ι :=
  { s with
    rho_prev := s.rho_next
    rho_next := fun _ => 0 }

end SpectralGrid

/-- The coefficient arrays of a `PsatdCoeffs` object as consumed by
`push_eb_with`.  The arrays are real-valued; here they are carried as
rationals so that the push itself stays in exact arithmetic (the
trigonometric constructor is embedded separately over `ℝ`). -/
structure PsatdCoeffsQ (ι : Type) where
  m : ℕ
  dt : ℚ
  C : ι → ℚ
  S_w : ι → ℚ
  j_coef : ι → ℚ
  rho_prev_coef : ι → ℚ
  rho_next_coef : ι → ℚ

namespace SpectralGrid

variable {ι : Type}

/-- `SpectralGrid.push_eb_with` (CPU branch).  `csq`, `mu0q` and `eps0q`
stand for the physical constants `c**2`, `mu_0` and `epsilon_0` of the
source.  The source first snapshots `Ep, Em, Ez` into scratch arrays of the
coefficient object because the `E` arrays are overwritten before the `B`
update reads them; here the snapshot is the `let`-bound old record `s`, and
the `B` update reads the bound snapshots `Ep0, Em0, Ez0`. -/
def push_eb_with (csq mu0q eps0q : ℚ) (s : SpectralGrid ι) (ps : PsatdCoeffsQ ι)
    (ptcl_feedback use_true_rho : Bool) : SpectralGrid ι :=
  let Ep0 := s.Ep
  let Em0 := s.Em
  let Ez0 := s.Ez
  if ptcl_feedback then
    let rho_diff : ι → CQ := fun pt =>
      if use_true_rho then
        CQ.ofRat (ps.rho_next_coef pt) * s.rho_next pt
          - CQ.ofRat (ps.rho_prev_coef pt) * s.rho_prev pt
      else
        CQ.ofRat ((ps.rho_next_coef pt - ps.rho_prev_coef pt) * eps0q) *
          (CQ.ofRat (s.kr pt) * s.Ep pt - CQ.ofRat (s.kr pt) * s.Em pt
            + CQ.I * CQ.ofRat (s.kz pt) * s.Ez pt)
        - CQ.ofRat (ps.rho_next_coef pt * ps.dt) *
          (CQ.ofRat (s.kr pt) * s.Jp pt - CQ.ofRat (s.kr pt) * s.Jm pt
            + CQ.I * CQ.ofRat (s.kz pt) * s.Jz pt)
    { s with
      Ep := fun pt =>
        CQ.ofRat (ps.C pt) * s.Ep pt + CQ.ofRat (1/2 * s.kr pt) * rho_diff pt
          + CQ.ofRat (csq * ps.S_w pt) *
            (-CQ.I * CQ.ofRat (1/2 * s.kr pt) * s.Bz pt
              + CQ.ofRat (s.kz pt) * s.Bp pt - CQ.ofRat mu0q * s.Jp pt)
      Em := fun pt =>
        CQ.ofRat (ps.C pt) * s.Em pt - CQ.ofRat (1/2 * s.kr pt) * rho_diff pt
          + CQ.ofRat (csq * ps.S_w pt) *
            (-CQ.I * CQ.ofRat (1/2 * s.kr pt) * s.Bz pt
              - CQ.ofRat (s.kz pt) * s.Bm pt - CQ.ofRat mu0q * s.Jm pt)
      Ez := fun pt =>
        CQ.ofRat (ps.C pt) * s.Ez pt - CQ.I * CQ.ofRat (s.kz pt) * rho_diff pt
          + CQ.ofRat (csq * ps.S_w pt) *
            (CQ.I * CQ.ofRat (s.kr pt) * s.Bp pt
              + CQ.I * CQ.ofRat (s.kr pt) * s.Bm pt - CQ.ofRat mu0q * s.Jz pt)
      Bp := fun pt =>
        CQ.ofRat (ps.C pt) * s.Bp pt
          - CQ.ofRat (ps.S_w pt) *
            (-CQ.I * CQ.ofRat (1/2 * s.kr pt) * Ez0 pt
              + CQ.ofRat (s.kz pt) * Ep0 pt)
          + CQ.ofRat (ps.j_coef pt) *
            (-CQ.I * CQ.ofRat (1/2 * s.kr pt) * s.Jz pt
              + CQ.ofRat (s.kz pt) * s.Jp pt)
      Bm := fun pt =>
        CQ.ofRat (ps.C pt) * s.Bm pt
          - CQ.ofRat (ps.S_w pt) *
            (-CQ.I * CQ.ofRat (1/2 * s.kr pt) * Ez0 pt
              - CQ.ofRat (s.kz pt) * Em0 pt)
          + CQ.ofRat (ps.j_coef pt) *
            (-CQ.I * CQ.ofRat (1/2 * s.kr pt) * s.Jz pt
              - CQ.ofRat (s.kz pt) * s.Jm pt)
      Bz := fun pt =>
        CQ.ofRat (ps.C pt) * s.Bz pt
          - CQ.ofRat (ps.S_w pt) *
            (CQ.I * CQ.ofRat (s.kr pt) * Ep0 pt
              + CQ.I * CQ.ofRat (s.kr pt) * Em0 pt)
          + CQ.ofRat (ps.j_coef pt) *
            (CQ.I * CQ.ofRat (s.kr pt) * s.Jp pt
              + CQ.I * CQ.ofRat (s.kr pt) * s.Jm pt) }
  else
    { s with
      Ep := fun pt =>
        CQ.ofRat (ps.C pt) * s.Ep pt
          + CQ.ofRat (csq * ps.S_w pt) *
            (-CQ.I * CQ.ofRat (1/2 * s.kr pt) * s.Bz pt
              + CQ.ofRat (s.kz pt) * s.Bp pt)
      Em := fun pt =>
        CQ.ofRat (ps.C pt) * s.Em pt
          + CQ.ofRat (csq * ps.S_w pt) *
            (-CQ.I * CQ.ofRat (1/2 * s.kr pt) * s.Bz pt
              - CQ.ofRat (s.kz pt) * s.Bm pt)
      Ez := fun pt =>
        CQ.ofRat (ps.C pt) * s.Ez pt
          + CQ.ofRat (csq * ps.S_w pt) *
            (CQ.I * CQ.ofRat (s.kr pt) * s.Bp pt
              + CQ.I * CQ.ofRat (s.kr pt) * s.Bm pt)
      Bp := fun pt =>
        CQ.ofRat (ps.C pt) * s.Bp pt
          - CQ.ofRat (ps.S_w pt) *
            (-CQ.I * CQ.ofRat (1/2 * s.kr pt) * Ez0 pt
              + CQ.ofRat (s.kz pt) * Ep0 pt)
      Bm := fun pt =>
        CQ.ofRat (ps.C pt) * s.Bm pt
          - CQ.ofRat (ps.S_w pt) *
            (-CQ.I * CQ.ofRat (1/2 * s.kr pt) * Ez0 pt
              - CQ.ofRat (s.kz pt) * Em0 pt)
      Bz := fun pt =>
        CQ.ofRat (ps.C pt) * s.Bz pt
          - CQ.ofRat (ps.S_w pt) *
            (CQ.I * CQ.ofRat (s.kr pt) * Ep0 pt
              + CQ.I * CQ.ofRat (s.kr pt) * Em0 pt) }

end SpectralGrid

/-- The equal-weight spectral energy density
`|Ep|²+|Em|²+|Ez|² + c²(|Bp|²+|Bm|²+|Bz|²)` at one spectral point, as the
spec's vacuum-energy property states it. -/
def energyDensityEq {ι : Type} (csq : ℚ) (s : SpectralGrid ι) (pt : ι) : ℚ :=
  (s.Ep pt).normSq + (s.Em pt).normSq + (s.Ez pt).normSq
    + csq * ((s.Bp pt).normSq + (s.Bm pt).normSq + (s.Bz pt).normSq)

/-- The equal-weight spectral energy summed over all `(kz, kr)` points. -/
def fieldEnergyEq {ι : Type} [Fintype ι] (csq : ℚ) (s : SpectralGrid ι) : ℚ :=
  ∑ pt, energyDensityEq csq s pt

/-- The weighted spectral energy density
`2|Ep|²+2|Em|²+|Ez|² + c²(2|Bp|²+2|Bm|²+|Bz|²)` at one spectral point.
The rotating transverse components `p`/`m` carry half the modulus of the
`(r, t)` pair they encode, so this weighting is the one the vacuum push
actually conserves. -/
def energyDensityW {ι : Type} (csq : ℚ) (s : SpectralGrid ι) (pt : ι) : ℚ :=
  2 * (s.Ep pt).normSq + 2 * (s.Em pt).normSq + (s.Ez pt).normSq
    + csq * (2 * (s.Bp pt).normSq + 2 * (s.Bm pt).normSq + (s.Bz pt).normSq)

/-- The weighted spectral energy summed over all `(kz, kr)` points. -/
def fieldEnergyW {ι : Type} [Fintype ι] (csq : ℚ) (s : SpectralGrid ι) : ℚ :=
  ∑ pt, energyDensityW csq s pt

/-- The spectral divergence `kr*(Fp - Fm) + i*kz*Fz` of a `p/m/z` triple at
one point (the combination appearing in `correct_currents` and in the
`use_true_rho=False` branch of `push_eb_with`). -/
def spectralDiv {ι : Type} (kz kr : ι → ℚ) (Fp Fm Fz : ι → CQ) (pt : ι) : CQ :=
  CQ.ofRat (kr pt) * (Fp pt - Fm pt) + CQ.I * CQ.ofRat (kz pt) * Fz pt

/-!
## `PsatdCoeffs` constructor (class `PsatdCoeffs` of the source)

The coefficient formulas are trigonometric, so this constructor is embedded
over `ℝ`, with the physical constants of `scipy.constants`:
`c = 299792458`, `mu_0 = 4π·10⁻⁷`, `epsilon_0 = 1/(mu_0·c²)`.
-/

/-- Speed of light `c` (`scipy.constants.c`). -/
noncomputable def c_light : ℝ := 299792458

/-- Vacuum permeability `mu_0` (`scipy.constants.mu_0`). -/
noncomputable def mu_0 : ℝ := 4 * Real.pi * (1 / 10 ^ 7)

/-- Vacuum permittivity `epsilon_0` (`scipy.constants.epsilon_0`). -/
noncomputable def epsilon_0 : ℝ := 1 / (mu_0 * c_light ^ 2)

/-- The real-valued coefficient arrays of `PsatdCoeffs`. -/
structure PsatdCoeffs (ι : Type) where
  m : ℕ
  dt : ℝ
  C : ι → ℝ
  S_w : ι → ℝ
  j_coef : ι → ℝ
  rho_prev_coef : ι → ℝ
  rho_next_coef : ι → ℝ

/-- `PsatdCoeffs.__init__`: `w = c*sqrt(kz²+kr²)`,
`inv_w = 1/np.where(w==0, 1, w)`, then the coefficient arrays with their
`w==0` entries overwritten by the closed-form Taylor limits (the guarded
`inv_w` means no division by `ω` ever happens at those points). -/
noncomputable def PsatdCoeffs.init {ι : Type} (kz kr : ι → ℝ) (m : ℕ)
    (dt : ℝ) : PsatdCoeffs ι :=
  let w : ι → ℝ := fun pt => c_light * Real.sqrt ((kz pt) ^ 2 + (kr pt) ^ 2)
  let inv_w : ι → ℝ := fun pt => 1 / (if w pt = 0 then 1 else w pt)
  let inv_dt : ℝ := 1 / dt
  let C : ι → ℝ := fun pt => Real.cos (w pt * dt)
  let S_w : ι → ℝ := fun pt =>
    if w pt = 0 then dt else Real.sin (w pt * dt) * inv_w pt
  { m := m
    dt := dt
    C := C
    S_w := S_w
    j_coef := fun pt =>
      if w pt = 0 then mu_0 * c_light ^ 2 * (1/2 * dt ^ 2)
      else mu_0 * c_light ^ 2 * (1 - C pt) * inv_w pt ^ 2
    rho_prev_coef := fun pt =>
      if w pt = 0 then c_light ^ 2 / epsilon_0 * (-(1/3) * dt ^ 2)
      else c_light ^ 2 / epsilon_0 * (C pt - inv_dt * S_w pt) * inv_w pt ^ 2
    rho_next_coef := fun pt =>
      if w pt = 0 then c_light ^ 2 / epsilon_0 * (1/6 * dt ^ 2)
      else c_light ^ 2 / epsilon_0 * (1 - inv_dt * S_w pt) * inv_w pt ^ 2 }

/-- The discrete continuity residual
`(rho_next - rho_prev)/dt + i*kz*Jz + kr*(Jp - Jm)` of a spectral-grid
state at one spectral point. -/
def continuityResidual {ι : Type} (s : SpectralGrid ι) (dt : ℚ) (pt : ι) : CQ :=
  (s.rho_next pt - s.rho_prev pt).divQ dt
    + CQ.I * CQ.ofRat (s.kz pt) * s.Jz pt
    + CQ.ofRat (s.kr pt) * (s.Jp pt - s.Jm pt)

/-- Claim C5: after `push_rho`, `rho_prev` equals the `rho_next` held
immediately before the call, and `rho_next` is zero at every point. -/
theorem c5_push_rho_rotation {ι : Type} (s : SpectralGrid ι) :
    (s.push_rho).rho_prev = s.rho_next ∧ ∀ pt, (s.push_rho).rho_next pt = 0 :=
  ⟨rfl, fun _ => rfl⟩

/-- Claim C9: `correct_currents` mutates only `Jp`, `Jm`, `Jz` and the
scratch `F`; the fields `Ep, Em, Ez, Bp, Bm, Bz, rho_prev, rho_next` are
unchanged by the call. -/
theorem c9_correct_currents_frame {ι : Type} (s : SpectralGrid ι) (dt : ℚ) :
    (s.correct_currents dt).Ep = s.Ep ∧ (s.correct_currents dt).Em = s.Em ∧
    (s.correct_currents dt).Ez = s.Ez ∧ (s.correct_currents dt).Bp = s.Bp ∧
    (s.correct_currents dt).Bm = s.Bm ∧ (s.correct_currents dt).Bz = s.Bz ∧
    (s.correct_currents dt).rho_prev = s.rho_prev ∧
    (s.correct_currents dt).rho_next = s.rho_next :=
  ⟨rfl, rfl, rfl, rfl, rfl, rfl, rfl, rfl⟩

/-- Claim C4: at every spectral point where `kz = 0` and `kr = 0`, the entries
of `Jp`, `Jm`, `Jz` are unchanged by `correct_currents`, and the precomputed
`inv_k2` array (the construction invariant `inv_k2 = invK2 kz kr`) holds `0`
there. -/
theorem c4_zero_mode_noop {ι : Type} (s : SpectralGrid ι) (dt : ℚ) (pt : ι)
    (hinv : s.inv_k2 = invK2 s.kz s.kr)
    (hkz : s.kz pt = 0) (hkr : s.kr pt = 0) :
    (s.correct_currents dt).Jp pt = s.Jp pt ∧
    (s.correct_currents dt).Jm pt = s.Jm pt ∧
    (s.correct_currents dt).Jz pt = s.Jz pt ∧
    s.inv_k2 pt = 0 := by
  refine ⟨?_, ?_, ?_, ?_⟩
  · apply CQ.ext <;> simp [SpectralGrid.correct_currents, hkz, hkr]
  · apply CQ.ext <;> simp [SpectralGrid.correct_currents, hkz, hkr]
  · apply CQ.ext <;> simp [SpectralGrid.correct_currents, hkz, hkr]
  · rw [hinv]; simp [invK2, hkz, hkr]

/-- Witness for C4 at a concrete one-point grid with `kz = kr = 0`. -/
theorem c4_zero_mode_noop_witness :
    ((SpectralGrid.init (fun _ : Fin 1 => (0 : ℚ)) (fun _ => 0) 0).inv_k2 =
        invK2 (fun _ => 0) (fun _ => 0)) ∧
    (((SpectralGrid.init (fun _ : Fin 1 => (0 : ℚ)) (fun _ => 0)
        0).correct_currents 1).Jp 0 =
      (SpectralGrid.init (fun _ : Fin 1 => (0 : ℚ)) (fun _ => 0) 0).Jp 0) ∧
    (SpectralGrid.init (fun _ : Fin 1 => (0 : ℚ)) (fun _ => 0) 0).inv_k2 0 = 0 := by
  refine ⟨rfl, ?_, ?_⟩
  · exact (c4_zero_mode_noop _ 1 0 rfl rfl rfl).1
  · exact (c4_zero_mode_noop (SpectralGrid.init (fun _ => 0) (fun _ => 0) 0)
      1 0 rfl rfl rfl).2.2.2

/-- Claim C1: for a spectral-grid state carrying the construction invariant
`inv_k2 = invK2 kz kr`, and any `dt > 0`, the continuity residual recomputed
with the corrected currents vanishes at every spectral point with
`kz² + kr² ≠ 0`. -/
theorem c1_continuity_after_correction {ι : Type} (s : SpectralGrid ι)
    (dt : ℚ) (pt : ι)
    (hinv : s.inv_k2 = invK2 s.kz s.kr)
    (hdt : 0 < dt)
    (hk : s.kz pt ^ 2 + s.kr pt ^ 2 ≠ 0) :
    continuityResidual (s.correct_currents dt) dt pt = 0 := by
  have hcond : ¬(s.kz pt = 0 ∧ s.kr pt = 0) := by
    rintro ⟨h1, h2⟩
    exact hk (by rw [h1, h2]; ring)
  have hinv_pt : s.inv_k2 pt = (s.kz pt ^ 2 + s.kr pt ^ 2)⁻¹ := by
    rw [hinv]; simp [invK2, hcond]
  have hdt0 : dt ≠ 0 := ne_of_gt hdt
  apply CQ.ext <;>
    · simp only [continuityResidual, SpectralGrid.correct_currents,
        CQ.add_re, CQ.add_im, CQ.sub_re, CQ.sub_im, CQ.mul_re, CQ.mul_im,
        CQ.neg_re, CQ.neg_im, CQ.divQ_re, CQ.divQ_im,
        CQ.ofRat_re, CQ.ofRat_im, CQ.I_re, CQ.I_im, CQ.zero_re, CQ.zero_im,
        hinv_pt]
      field_simp
      ring

/-- A concrete one-point spectral grid with `kz = 1`, `kr = 0`, a nonzero
current `Jz` and mismatched charge densities, used to witness C1. -/
def c1grid : SpectralGrid (Fin 1) :=
  { SpectralGrid.init (fun _ => 1) (fun _ => 0) 0 with
      Jz := fun _ => CQ.I
      rho_next := fun _ => 1 }

/-!
## `InterpolationGrid` and the binomial filter

Real-grid arrays are indexed by `Fin Nz × Fin Nr` (longitudinal index
first, as in the source).  `binomial_filter` embeds the in-place numpy
stencils of the source; since every assignment reads only the
`F_unfiltered` copy, the in-place writes become one pointwise definition.
The numpy write order (interior slice, then the `0` row/column, then the
`-1` row/column, valid for sizes at least 2 in the filtered direction) is
captured by checking the last-written index cases first. -/

/-- The `direction='z'` stencil of `binomial_filter` (periodic wrap). -/
def binomial_filter_z {Nz Nr : ℕ} (F : Fin Nz × Fin Nr → CQ) :
    Fin Nz × Fin Nr → CQ := fun p =>
  let i := p.1
  let j := p.2
  if hl : (i : ℕ) = Nz - 1 then
    CQ.ofRat (1/4) * F (⟨(Nz - 2) % Nz, Nat.mod_lt _ i.pos⟩, j)
      + CQ.ofRat (1/2) * F (i, j)
      + CQ.ofRat (1/4) * F (⟨0, i.pos⟩, j)
  else if h0 : (i : ℕ) = 0 then
    CQ.ofRat (1/4) * F (⟨Nz - 1, Nat.sub_lt i.pos one_pos⟩, j)
      + CQ.ofRat (1/2) * F (i, j)
      + CQ.ofRat (1/4) * F (⟨1 % Nz, Nat.mod_lt _ i.pos⟩, j)
  else
    CQ.ofRat (1/4) * F (⟨(i : ℕ) - 1, by omega⟩, j)
      + CQ.ofRat (1/2) * F (i, j)
      + CQ.ofRat (1/4) * F (⟨(i : ℕ) + 1, by omega⟩, j)

/-- The `direction='r'` stencil of `binomial_filter` (non-periodic).
At the axis (`r` index `0`) the source uses the guard cell
`sign_guard * F[:,0]` but weights the cell above the axis by `0.5`
(`F[:,0] = 0.25*sign_guard*F[:,0] + 0.5*F[:,0] + 0.5*F[:,1]`); at the
outer boundary the last value is duplicated. -/
def binomial_filter_r {Nz Nr : ℕ} (sign_guard : ℚ) (F : Fin Nz × Fin Nr → CQ) :
    Fin Nz × Fin Nr → CQ := fun p =>
  let i := p.1
  let j := p.2
  if hl : (j : ℕ) = Nr - 1 then
    CQ.ofRat (1/4) * F (i, j) + CQ.ofRat (1/2) * F (i, j)
      + CQ.ofRat (1/4) * F (i, ⟨(Nr - 2) % Nr, Nat.mod_lt _ j.pos⟩)
  else if h0 : (j : ℕ) = 0 then
    CQ.ofRat (1/4 * sign_guard) * F (i, j) + CQ.ofRat (1/2) * F (i, j)
      + CQ.ofRat (1/2) * F (i, ⟨1 % Nr, Nat.mod_lt _ j.pos⟩)
  else
    CQ.ofRat (1/4) * F (i, ⟨(j : ℕ) - 1, by omega⟩)
      + CQ.ofRat (1/2) * F (i, j)
      + CQ.ofRat (1/4) * F (i, ⟨(j : ℕ) + 1, by omega⟩)

/-- `binomial_filter`: dispatch on the direction string; an unrecognized
direction raises. -/
def binomial_filter {Nz Nr : ℕ} (F : Fin Nz × Fin Nr → CQ)
    (direction : String) (sign_guard : ℚ) :
    Except String (Fin Nz × Fin Nr → CQ) :=
  if direction = "z" then .ok (binomial_filter_z F)
  else if direction = "r" then .ok (binomial_filter_r sign_guard F)
  else .error ("Unrecognized direction : " ++ direction)

/-- Real-grid state for one azimuthal mode (class `InterpolationGrid`).
The geometric scalars (`z`, `r`, spacings, extents) other than `invvol`
do not enter the verified operations and are not carried. -/
structure InterpolationGrid (ι : Type) where
  m : ℕ
  invvol : ι → ℚ
  Er : ι → CQ
  Et : ι → CQ
  Ez : ι → CQ
  Br : ι → CQ
  Bt : ι → CQ
  Bz : ι → CQ
  Jr : ι → CQ
  Jt : ι → CQ
  Jz : ι → CQ
  rho : ι → CQ

/-- `InterpolationGrid.filter`: per-fieldtype dispatch applying
`binomial_filter` with guard sign `(-1)^m` for `rho` and the `z`
components and `-(-1)^m` for the `r` and `t` components. -/
def InterpolationGrid.filter {Nz Nr : ℕ}
    (g : InterpolationGrid (Fin Nz × Fin Nr)) (fieldtype direction : String) :
    Except String (InterpolationGrid (Fin Nz × Fin Nr)) :=
  let sgn : ℚ := (-1) ^ g.m
  if fieldtype = "rho" then do
    let rho ← binomial_filter g.rho direction sgn
    .ok { g with rho := rho }
  else if fieldtype = "J" then do
    let Jr ← binomial_filter g.Jr direction (-sgn)
    let Jt ← binomial_filter g.Jt direction (-sgn)
    let Jz ← binomial_filter g.Jz direction sgn
    .ok { g with Jr := Jr, Jt := Jt, Jz := Jz }
  else if fieldtype = "E" then do
    let Er ← binomial_filter g.Er direction (-sgn)
    let Et ← binomial_filter g.Et direction (-sgn)
    let Ez ← binomial_filter g.Ez direction sgn
    .ok { g with Er := Er, Et := Et, Ez := Ez }
  else if fieldtype = "B" then do
    let Br ← binomial_filter g.Br direction (-sgn)
    let Bt ← binomial_filter g.Bt direction (-sgn)
    let Bz ← binomial_filter g.Bz direction sgn
    .ok { g with Br := Br, Bt := Bt, Bz := Bz }
  else
    .error ("Invalid string for fieldtype: " ++ fieldtype)

/-!
## `SpectralTransformer` (class `SpectralTransformer` of the source)

The discrete Hankel transforms (`dht0`, `dhtp`, `dhtm`) and the
longitudinal FFT are external collaborators, consumed as opaque array
operators; a transformer carries them as function fields.  The source's
aliased scratch buffers (`spect_buffer_p` is `spect_buffer_r`,
`spect_buffer_m` is `spect_buffer_t`) are written through Python tuple
assignments whose right-hand sides are fully evaluated first, so the
embedding uses the mathematical values directly. -/

/-- Per-mode transformer: the order-`m`, order-`m+1` and order-`m-1`
Hankel operators (forward and inverse) and the longitudinal FFT pair. -/
structure SpectralTransformer (ι : Type) where
  dht0_transform : (ι → CQ) → (ι → CQ)
  dht0_inverse : (ι → CQ) → (ι → CQ)
  dhtp_transform : (ι → CQ) → (ι → CQ)
  dhtp_inverse : (ι → CQ) → (ι → CQ)
  dhtm_transform : (ι → CQ) → (ι → CQ)
  dhtm_inverse : (ι → CQ) → (ι → CQ)
  fft : (ι → CQ) → (ι → CQ)
  ifft : (ι → CQ) → (ι → CQ)

namespace SpectralTransformer

variable {ι : Type}

/-- `interp2spect_scal`: FFT along `z`, then the order-`m` Hankel
transform along `r`. -/
def interp2spect_scal (T : SpectralTransformer ι) (interp_array : ι → CQ) :
    ι → CQ :=
  T.dht0_transform (T.fft interp_array)

/-- `spect2interp_scal`: inverse order-`m` Hankel transform along `r`,
then inverse FFT along `z`. -/
def spect2interp_scal (T : SpectralTransformer ι) (spect_array : ι → CQ) :
    ι → CQ :=
  T.ifft (T.dht0_inverse spect_array)

/-- `interp2spect_vect`: FFT both components, combine
`p = 0.5*(Z[r] - i*Z[t])`, `m = 0.5*(Z[r] + i*Z[t])`, then the
order-`(m+1)` and order-`(m-1)` Hankel transforms. -/
def interp2spect_vect (T : SpectralTransformer ι)
    (interp_array_r interp_array_t : ι → CQ) : (ι → CQ) × (ι → CQ) :=
  let Zr := T.fft interp_array_r
  let Zt := T.fft interp_array_t
  (T.dhtp_transform (fun x => CQ.ofRat (1/2) * (Zr x - CQ.I * Zt x)),
   T.dhtm_transform (fun x => CQ.ofRat (1/2) * (Zr x + CQ.I * Zt x)))

/-- `spect2interp_vect`: inverse Hankel transforms of the `p` and `m`
components, recombination `r = P + M`, `t = i*(P - M)`, then inverse
FFTs. -/
def spect2interp_vect (T : SpectralTransformer ι)
    (spect_array_p spect_array_m : ι → CQ) : (ι → CQ) × (ι → CQ) :=
  let P := T.dhtp_inverse spect_array_p
  let M := T.dhtm_inverse spect_array_m
  (T.ifft (fun x => P x + M x), T.ifft (fun x => CQ.I * (P x - M x)))

end SpectralTransformer

/-- The frequency `ω = c·√(kz² + kr²)` at a spectral point. -/
noncomputable def psatdOmega {ι : Type} (kz kr : ι → ℝ) (pt : ι) : ℝ :=
  c_light * Real.sqrt ((kz pt) ^ 2 + (kr pt) ^ 2)

/-- Claim C3: at every spectral point, the `PsatdCoeffs` constructor
produces `C = cos(ω·dt)`, and — per the two cases `ω ≠ 0` / `ω = 0` —
`S_w = sin(ω·dt)/ω` or `dt`, `j_coef = μ0·c²·(1−C)/ω²` or `μ0·c²·dt²/2`,
`rho_prev_coef = (c²/ε0)·(C − S_w/dt)/ω²` or `−(c²/ε0)·dt²/3`, and
`rho_next_coef = (c²/ε0)·(1 − S_w/dt)/ω²` or `(c²/ε0)·dt²/6`.  The `ω = 0`
values are the overwritten closed-form limits; the guarded `inv_w` of the
embedding mirrors the source's `np.where` guard, so no division by `ω`
is performed at those points. -/
theorem c3_psatd_coefficients {ι : Type} (kz kr : ι → ℝ) (m : ℕ) (dt : ℝ)
    (pt : ι) :
    (PsatdCoeffs.init kz kr m dt).C pt =
      Real.cos (psatdOmega kz kr pt * dt) ∧
    (PsatdCoeffs.init kz kr m dt).S_w pt =
      (if psatdOmega kz kr pt = 0 then dt
       else Real.sin (psatdOmega kz kr pt * dt) / psatdOmega kz kr pt) ∧
    (PsatdCoeffs.init kz kr m dt).j_coef pt =
      (if psatdOmega kz kr pt = 0 then mu_0 * c_light ^ 2 * dt ^ 2 / 2
       else mu_0 * c_light ^ 2 * (1 - Real.cos (psatdOmega kz kr pt * dt)) /
         psatdOmega kz kr pt ^ 2) ∧
    (PsatdCoeffs.init kz kr m dt).rho_prev_coef pt =
      (if psatdOmega kz kr pt = 0 then -(c_light ^ 2 / epsilon_0) * dt ^ 2 / 3
       else c_light ^ 2 / epsilon_0 *
         (Real.cos (psatdOmega kz kr pt * dt)
           - Real.sin (psatdOmega kz kr pt * dt) / psatdOmega kz kr pt / dt) /
         psatdOmega kz kr pt ^ 2) ∧
    (PsatdCoeffs.init kz kr m dt).rho_next_coef pt =
      (if psatdOmega kz kr pt = 0 then c_light ^ 2 / epsilon_0 * dt ^ 2 / 6
       else c_light ^ 2 / epsilon_0 *
         (1 - Real.sin (psatdOmega kz kr pt * dt) / psatdOmega kz kr pt / dt) /
         psatdOmega kz kr pt ^ 2) := by
  refine ⟨rfl, ?_, ?_, ?_, ?_⟩ <;>
    · simp only [PsatdCoeffs.init, psatdOmega]
      split_ifs with h
      · ring
      · ring

/-- Pointwise energy balance of the vacuum (`ptcl_feedback=False`) push:
with exact propagator coefficients (`C² + c²k²·S_w² = 1`) and pointwise
divergence-free `E` and `B`, the weighted energy density is conserved. -/
theorem push_eb_vacuum_pointwise {ι : Type} (csq mu0q eps0q : ℚ)
    (s : SpectralGrid ι) (ps : PsatdCoeffsQ ι) (utr : Bool) (pt : ι)
    (hdisp : ps.C pt ^ 2 + csq * (s.kz pt ^ 2 + s.kr pt ^ 2) * ps.S_w pt ^ 2 = 1)
    (hdivE : spectralDiv s.kz s.kr s.Ep s.Em s.Ez pt = 0)
    (hdivB : spectralDiv s.kz s.kr s.Bp s.Bm s.Bz pt = 0) :
    energyDensityW csq (s.push_eb_with csq mu0q eps0q ps false utr) pt =
      energyDensityW csq s pt := by
  have hER : s.kr pt * ((s.Ep pt).re - (s.Em pt).re) - s.kz pt * (s.Ez pt).im = 0 := by
    have h := congrArg CQ.re hdivE
    simp [spectralDiv] at h
    linarith
  have hEI : s.kr pt * ((s.Ep pt).im - (s.Em pt).im) + s.kz pt * (s.Ez pt).re = 0 := by
    have h := congrArg CQ.im hdivE
    simp [spectralDiv] at h
    linarith
  have hBR : s.kr pt * ((s.Bp pt).re - (s.Bm pt).re) - s.kz pt * (s.Bz pt).im = 0 := by
    have h := congrArg CQ.re hdivB
    simp [spectralDiv] at h
    linarith
  have hBI : s.kr pt * ((s.Bp pt).im - (s.Bm pt).im) + s.kz pt * (s.Bz pt).re = 0 := by
    have h := congrArg CQ.im hdivB
    simp [spectralDiv] at h
    linarith
  simp only [energyDensityW, CQ.normSq, SpectralGrid.push_eb_with,
    Bool.false_eq_true, if_false, CQ.add_re, CQ.add_im, CQ.sub_re, CQ.sub_im,
    CQ.mul_re, CQ.mul_im, CQ.neg_re, CQ.neg_im, CQ.ofRat_re, CQ.ofRat_im,
    CQ.I_re, CQ.I_im]
  linear_combination
    (2 * (s.Ep pt).re ^ 2 + 2 * (s.Ep pt).im ^ 2
      + 2 * (s.Em pt).re ^ 2 + 2 * (s.Em pt).im ^ 2
      + (s.Ez pt).re ^ 2 + (s.Ez pt).im ^ 2
      + csq * (2 * (s.Bp pt).re ^ 2 + 2 * (s.Bp pt).im ^ 2
        + 2 * (s.Bm pt).re ^ 2 + 2 * (s.Bm pt).im ^ 2
        + (s.Bz pt).re ^ 2 + (s.Bz pt).im ^ 2)) * hdisp
    - csq * ps.S_w pt ^ 2 *
      (s.kr pt * ((s.Ep pt).re - (s.Em pt).re) - s.kz pt * (s.Ez pt).im) * hER
    - csq * ps.S_w pt ^ 2 *
      (s.kr pt * ((s.Ep pt).im - (s.Em pt).im) + s.kz pt * (s.Ez pt).re) * hEI
    - csq ^ 2 * ps.S_w pt ^ 2 *
      (s.kr pt * ((s.Bp pt).re - (s.Bm pt).re) - s.kz pt * (s.Bz pt).im) * hBR
    - csq ^ 2 * ps.S_w pt ^ 2 *
      (s.kr pt * ((s.Bp pt).im - (s.Bm pt).im) + s.kz pt * (s.Bz pt).re) * hBI

/-- Claim C2 (amended): with `ptcl_feedback=false`, exact propagator
coefficients (`C² + c²k²·S_w² = 1` at every point) and divergence-free `E`
and `B`, `push_eb` conserves the weighted spectral energy
`2|Ep|²+2|Em|²+|Ez|² + c²(2|Bp|²+2|Bm|²+|Bz|²)` summed over all `(kz, kr)`
points.  (The equal-weight sum of the claim as stated is not conserved; see
the counterexample.) -/
theorem c2_weighted_vacuum_energy {ι : Type} [Fintype ι]
    (csq mu0q eps0q : ℚ) (s : SpectralGrid ι) (ps : PsatdCoeffsQ ι) (utr : Bool)
    (hdisp : ∀ pt, ps.C pt ^ 2 + csq * (s.kz pt ^ 2 + s.kr pt ^ 2) * ps.S_w pt ^ 2 = 1)
    (hdivE : ∀ pt, spectralDiv s.kz s.kr s.Ep s.Em s.Ez pt = 0)
    (hdivB : ∀ pt, spectralDiv s.kz s.kr s.Bp s.Bm s.Bz pt = 0) :
    fieldEnergyW csq (s.push_eb_with csq mu0q eps0q ps false utr) =
      fieldEnergyW csq s := by
  unfold fieldEnergyW
  exact Finset.sum_congr rfl fun pt _ =>
    push_eb_vacuum_pointwise csq mu0q eps0q s ps utr pt
      (hdisp pt) (hdivE pt) (hdivB pt)

/-- Concrete one-point grid for the C2 theorems: `kz = 0`, `kr = 1/c`,
`Ez = 1`, all other fields zero (a divergence-free state). -/
def c2grid : SpectralGrid (Fin 1) where
  m := 0
  kz := fun _ => 0
  kr := fun _ => 1/299792458
  Ep := fun _ => 0
  Em := fun _ => 0
  Ez := fun _ => 1
  Bp := fun _ => 0
  Bm := fun _ => 0
  Bz := fun _ => 0
  Jp := fun _ => 0
  Jm := fun _ => 0
  Jz := fun _ => 0
  rho_prev := fun _ => 0
  rho_next := fun _ => 0
  F := fun _ => 0
  inv_k2 := invK2 (fun _ => 0) (fun _ => 1/299792458)

/-- Concrete coefficients for the C2 counterexample: `cos(ω·dt) = 3/5`,
`sin(ω·dt)/ω = 4/5` at `ω = c·kr = 1`, which satisfy the exact dispersion
relation `C² + c²k²·S_w² = 1`. -/
def c2ps : PsatdCoeffsQ (Fin 1) where
  m := 0
  dt := 1
  C := fun _ => 3/5
  S_w := fun _ => 4/5
  j_coef := fun _ => 0
  rho_prev_coef := fun _ => 0
  rho_next_coef := fun _ => 0

/-- `c² = 299792458²`, the square of the speed of light of the source. -/
def c2csq : ℚ := 299792458 ^ 2

/-- Counterexample to C2 as stated: at a concrete divergence-free state and
exact propagator coefficients, one vacuum `push_eb` changes the equal-weight
sum `|Ep|²+|Em|²+|Ez|² + c²(|Bp|²+|Bm|²+|Bz|²)` (from `1` to `17/25`). -/
theorem c2_counterexample :
    (c2ps.C 0 ^ 2 + c2csq * (c2grid.kz 0 ^ 2 + c2grid.kr 0 ^ 2) * c2ps.S_w 0 ^ 2 = 1) ∧
    fieldEnergyEq c2csq (c2grid.push_eb_with c2csq 0 0 c2ps false false) ≠
      fieldEnergyEq c2csq c2grid := by
  constructor
  · norm_num [c2ps, c2grid, c2csq]
  · norm_num [fieldEnergyEq, energyDensityEq, CQ.normSq,
      SpectralGrid.push_eb_with, c2grid, c2ps, c2csq, Fin.sum_univ_one]

/-- Witness for the amended C2 at the concrete divergence-free state
`c2grid` with coefficients `c2ps`. -/
theorem c2_weighted_vacuum_energy_witness :
    fieldEnergyW c2csq (c2grid.push_eb_with c2csq 0 0 c2ps false false) =
      fieldEnergyW c2csq c2grid :=
  c2_weighted_vacuum_energy c2csq 0 0 c2grid c2ps false
    (fun pt => by norm_num [c2ps, c2grid, c2csq])
    (fun pt => by apply CQ.ext <;> simp [spectralDiv, c2grid])
    (fun pt => by apply CQ.ext <;> simp [spectralDiv, c2grid])

/-- Claim C7: assuming the forward/inverse contracts of the injected
longitudinal transform and of the three radial basis operators, the scalar
round trip restores `F` exactly, and the vector round trip through the
`p/m` combination restores `(Fr, Ft)` jointly. -/
theorem c7_round_trip {ι : Type} (T : SpectralTransformer ι)
    (h0 : ∀ X, T.dht0_inverse (T.dht0_transform X) = X)
    (hp : ∀ X, T.dhtp_inverse (T.dhtp_transform X) = X)
    (hm : ∀ X, T.dhtm_inverse (T.dhtm_transform X) = X)
    (hf : ∀ X, T.ifft (T.fft X) = X)
    (F Fr Ft : ι → CQ) :
    T.spect2interp_scal (T.interp2spect_scal F) = F ∧
    T.spect2interp_vect (T.interp2spect_vect Fr Ft).1
      (T.interp2spect_vect Fr Ft).2 = (Fr, Ft) := by
  constructor
  · unfold SpectralTransformer.spect2interp_scal
      SpectralTransformer.interp2spect_scal
    rw [h0, hf]
  · unfold SpectralTransformer.spect2interp_vect
      SpectralTransformer.interp2spect_vect
    simp only [hp, hm]
    have h1 : (fun x =>
        CQ.ofRat (1/2) * (T.fft Fr x - CQ.I * T.fft Ft x)
          + CQ.ofRat (1/2) * (T.fft Fr x + CQ.I * T.fft Ft x)) = T.fft Fr := by
      funext x
      apply CQ.ext <;> simp <;> ring
    have h2 : (fun x =>
        CQ.I * (CQ.ofRat (1/2) * (T.fft Fr x - CQ.I * T.fft Ft x)
          - CQ.ofRat (1/2) * (T.fft Fr x + CQ.I * T.fft Ft x))) = T.fft Ft := by
      funext x
      apply CQ.ext <;> simp <;> ring
    rw [h1, h2, hf, hf]

/-- Identity transformer, for concrete witnesses. -/
def idTransformer (ι : Type) : SpectralTransformer ι where
  dht0_transform := id
  dht0_inverse := id
  dhtp_transform := id
  dhtp_inverse := id
  dhtm_transform := id
  dhtm_inverse := id
  fft := id
  ifft := id

/-- Witness for C7 with the identity collaborators (which satisfy the
forward/inverse contracts definitionally) and concrete fields. -/
theorem c7_round_trip_witness :
    (idTransformer (Fin 1)).spect2interp_scal
        ((idTransformer (Fin 1)).interp2spect_scal (fun _ => CQ.I)) = (fun _ => CQ.I) ∧
    (idTransformer (Fin 1)).spect2interp_vect
        ((idTransformer (Fin 1)).interp2spect_vect (fun _ => 1) (fun _ => CQ.I)).1
        ((idTransformer (Fin 1)).interp2spect_vect (fun _ => 1) (fun _ => CQ.I)).2 =
      (fun _ => 1, fun _ => CQ.I) :=
  c7_round_trip (idTransformer (Fin 1)) (fun _ => rfl) (fun _ => rfl) (fun _ => rfl)
    (fun _ => rfl) (fun _ => CQ.I) (fun _ => 1) (fun _ => CQ.I)

/-- Concrete failing input for C6: one row, two radial cells,
`F = [[0, 1]]`, filtered along `r` with guard sign `(+1)` (mode-0
`z`-component / `rho`). -/
def c6F : Fin 1 × Fin 2 → CQ := fun p => if p.2 = (1 : Fin 2) then 1 else 0

/-- Claim C6, evaluation at the failing input: the source's axis stencil
gives `F_new[:,0] = 0.5` (weight `0.5` on `F[:,1]`), not the `0.25` that
the guard-cell stencil `0.25*sign*F[:,0] + 0.5*F[:,0] + 0.25*F[:,1]` of
the claim (and of the source's own comment) would give. -/
theorem c6_axis_weight_bug :
    @binomial_filter_r 1 2 1 c6F (0, 0) = CQ.ofRat (1/2) ∧
    @binomial_filter_r 1 2 1 c6F (0, 0) ≠ CQ.ofRat (1/4) := by
  have hval : @binomial_filter_r 1 2 1 c6F (0, 0) = CQ.ofRat (1/2) := by
    apply CQ.ext <;> norm_num [binomial_filter_r, c6F]
  refine ⟨hval, ?_⟩
  rw [hval]
  intro h
  have := congrArg CQ.re h
  norm_num at this

/-- Witness for C1 at the concrete grid `c1grid` with `dt = 2`. -/
theorem c1_continuity_after_correction_witness :
    (c1grid.inv_k2 = invK2 c1grid.kz c1grid.kr) ∧
    (0 : ℚ) < 2 ∧
    (c1grid.kz 0 ^ 2 + c1grid.kr 0 ^ 2 ≠ 0) ∧
    continuityResidual (c1grid.correct_currents 2) 2 0 = 0 :=
  ⟨rfl, by norm_num,
    (by norm_num : ((1 : ℚ)) ^ 2 + ((0 : ℚ)) ^ 2 ≠ 0),
    c1_continuity_after_correction c1grid 2 0 rfl (by norm_num)
      (by norm_num : ((1 : ℚ)) ^ 2 + ((0 : ℚ)) ^ 2 ≠ 0)⟩

/-!
## `Fields` (class `Fields` of the source, CPU execution path)

One transformer, one interpolation grid and one spectral grid per azimuthal
mode, with the per-timestep dispatch methods.  The per-mode loops of the
source are embedded as simultaneous per-mode updates for the methods that
check the fieldtype string at `Fields` level before looping (`erase`,
`divide_by_volume`, `interp2spect`, `spect2interp`), and as a sequential
fold for `filter_interp`, which performs no `Fields`-level check and
delegates the fieldtype dispatch to each mode's grid inside the loop. -/

/-- The error message raised on an unrecognized fieldtype string. -/
def invalidFieldtype (fieldtype : String) : String :=
  "Invalid string for fieldtype: " ++ fieldtype

/-- Per-mode field state (class `Fields`). -/
structure Fields (Nz Nr Nm : ℕ) where
  dt : ℚ
  trans : Fin Nm → SpectralTransformer (Fin Nz × Fin Nr)
  interp : Fin Nm → InterpolationGrid (Fin Nz × Fin Nr)
  spect : Fin Nm → SpectralGrid (Fin Nz × Fin Nr)

namespace Fields

variable {Nz Nr Nm : ℕ}

/-- `Fields.erase` (CPU branch): zero the arrays of the given field group
on every mode's interpolation grid; unrecognized strings raise. -/
def erase (f : Fields Nz Nr Nm) (fieldtype : String) :
    Except String (Fields Nz Nr Nm) :=
  if fieldtype = "rho" then
    .ok { f with interp := fun m => { f.interp m with rho := fun _ => 0 } }
  else if fieldtype = "J" then
    .ok { f with interp := fun m =>
      { f.interp m with
          Jr := fun _ => 0, Jt := fun _ => 0, Jz := fun _ => 0 } }
  else if fieldtype = "E" then
    .ok { f with interp := fun m =>
      { f.interp m with
          Er := fun _ => 0, Et := fun _ => 0, Ez := fun _ => 0 } }
  else if fieldtype = "B" then
    .ok { f with interp := fun m =>
      { f.interp m with
          Br := fun _ => 0, Bt := fun _ => 0, Bz := fun _ => 0 } }
  else
    .error (invalidFieldtype fieldtype)

/-- `Fields.divide_by_volume` (CPU branch): multiply the deposited arrays
by `invvol`; unrecognized strings raise. -/
def divide_by_volume (f : Fields Nz Nr Nm) (fieldtype : String) :
    Except String (Fields Nz Nr Nm) :=
  if fieldtype = "rho" then
    .ok { f with interp := fun m =>
      { f.interp m with
          rho := fun x => (f.interp m).rho x * CQ.ofRat ((f.interp m).invvol x) } }
  else if fieldtype = "J" then
    .ok { f with interp := fun m =>
      { f.interp m with
          Jr := fun x => (f.interp m).Jr x * CQ.ofRat ((f.interp m).invvol x)
          Jt := fun x => (f.interp m).Jt x * CQ.ofRat ((f.interp m).invvol x)
          Jz := fun x => (f.interp m).Jz x * CQ.ofRat ((f.interp m).invvol x) } }
  else
    .error (invalidFieldtype fieldtype)

/-- `Fields.filter_interp`: loop over the modes, each applying
`InterpolationGrid.filter`; there is no `Fields`-level fieldtype check, so
an error can only surface from inside the loop. -/
def filter_interp (f : Fields Nz Nr Nm) (fieldtype direction : String) :
    Except String (Fields Nz Nr Nm) :=
  (List.finRange Nm).foldlM
    (fun s k =>
      ((s.interp k).filter fieldtype direction).map
        (fun g => { s with interp := Function.update s.interp k g }))
    f

/-- `Fields.interp2spect`: transform the given field group from the
interpolation grids into the spectral grids; unrecognized strings raise.
Both `rho_next` and `rho_prev` read the interpolation grid's `rho`. -/
def interp2spect (f : Fields Nz Nr Nm) (fieldtype : String) :
    Except String (Fields Nz Nr Nm) :=
  if fieldtype = "E" then
    .ok { f with spect := fun m =>
      { f.spect m with
          Ez := (f.trans m).interp2spect_scal ((f.interp m).Ez)
          Ep := ((f.trans m).interp2spect_vect
            ((f.interp m).Er) ((f.interp m).Et)).1
          Em := ((f.trans m).interp2spect_vect
            ((f.interp m).Er) ((f.interp m).Et)).2 } }
  else if fieldtype = "B" then
    .ok { f with spect := fun m =>
      { f.spect m with
          Bz := (f.trans m).interp2spect_scal ((f.interp m).Bz)
          Bp := ((f.trans m).interp2spect_vect
            ((f.interp m).Br) ((f.interp m).Bt)).1
          Bm := ((f.trans m).interp2spect_vect
            ((f.interp m).Br) ((f.interp m).Bt)).2 } }
  else if fieldtype = "J" then
    .ok { f with spect := fun m =>
      { f.spect m with
          Jz := (f.trans m).interp2spect_scal ((f.interp m).Jz)
          Jp := ((f.trans m).interp2spect_vect
            ((f.interp m).Jr) ((f.interp m).Jt)).1
          Jm := ((f.trans m).interp2spect_vect
            ((f.interp m).Jr) ((f.interp m).Jt)).2 } }
  else if fieldtype = "rho_next" then
    .ok { f with spect := fun m =>
      { f.spect m with
          rho_next := (f.trans m).interp2spect_scal ((f.interp m).rho) } }
  else if fieldtype = "rho_prev" then
    .ok { f with spect := fun m =>
      { f.spect m with
          rho_prev := (f.trans m).interp2spect_scal ((f.interp m).rho) } }
  else
    .error (invalidFieldtype fieldtype)

/-- `Fields.spect2interp`: transform the given field group from the
spectral grids back to the interpolation grids; unrecognized strings
raise.  The group `rho` reads the spectral `rho_next`. -/
def spect2interp (f : Fields Nz Nr Nm) (fieldtype : String) :
    Except String (Fields Nz Nr Nm) :=
  if fieldtype = "E" then
    .ok { f with interp := fun m =>
      { f.interp m with
          Ez := (f.trans m).spect2interp_scal ((f.spect m).Ez)
          Er := ((f.trans m).spect2interp_vect
            ((f.spect m).Ep) ((f.spect m).Em)).1
          Et := ((f.trans m).spect2interp_vect
            ((f.spect m).Ep) ((f.spect m).Em)).2 } }
  else if fieldtype = "B" then
    .ok { f with interp := fun m =>
      { f.interp m with
          Bz := (f.trans m).spect2interp_scal ((f.spect m).Bz)
          Br := ((f.trans m).spect2interp_vect
            ((f.spect m).Bp) ((f.spect m).Bm)).1
          Bt := ((f.trans m).spect2interp_vect
            ((f.spect m).Bp) ((f.spect m).Bm)).2 } }
  else if fieldtype = "J" then
    .ok { f with interp := fun m =>
      { f.interp m with
          Jz := (f.trans m).spect2interp_scal ((f.spect m).Jz)
          Jr := ((f.trans m).spect2interp_vect
            ((f.spect m).Jp) ((f.spect m).Jm)).1
          Jt := ((f.trans m).spect2interp_vect
            ((f.spect m).Jp) ((f.spect m).Jm)).2 } }
  else if fieldtype = "rho" then
    .ok { f with interp := fun m =>
      { f.interp m with
          rho := (f.trans m).spect2interp_scal ((f.spect m).rho_next) } }
  else
    .error (invalidFieldtype fieldtype)

end Fields

/-- On an unrecognized fieldtype, `InterpolationGrid.filter` raises for
every grid, regardless of the direction. -/
theorem interpGrid_filter_invalid {Nz Nr : ℕ}
    (g : InterpolationGrid (Fin Nz × Fin Nr)) (fieldtype direction : String)
    (hrho : fieldtype ≠ "rho") (hJ : fieldtype ≠ "J")
    (hE : fieldtype ≠ "E") (hB : fieldtype ≠ "B") :
    g.filter fieldtype direction = .error (invalidFieldtype fieldtype) := by
  simp [InterpolationGrid.filter, hrho, hJ, hE, hB, invalidFieldtype]

/-- Claim C8 (amended): each operation raises the invalid-fieldtype error,
for every field state, on every fieldtype string outside that operation's
own recognized set — `{rho, J, E, B}` for `erase`, `{rho, J}` for
`divide_by_volume`, `{E, B, J, rho_next, rho_prev}` for `interp2spect`,
`{E, B, J, rho}` for `spect2interp` — and, returning only the error,
leaves no mutated state behind; `filter` (recognized set `{rho, J, E, B}`)
does so provided at least one azimuthal mode exists. -/
theorem c8_invalid_fieldtype {Nz Nr Nm : ℕ} (f : Fields Nz Nr Nm)
    (fieldtype direction : String) :
    (fieldtype ≠ "rho" → fieldtype ≠ "J" → fieldtype ≠ "E" → fieldtype ≠ "B" →
      f.erase fieldtype = .error (invalidFieldtype fieldtype)) ∧
    (fieldtype ≠ "rho" → fieldtype ≠ "J" →
      f.divide_by_volume fieldtype = .error (invalidFieldtype fieldtype)) ∧
    (fieldtype ≠ "E" → fieldtype ≠ "B" → fieldtype ≠ "J" →
      fieldtype ≠ "rho_next" → fieldtype ≠ "rho_prev" →
      f.interp2spect fieldtype = .error (invalidFieldtype fieldtype)) ∧
    (fieldtype ≠ "E" → fieldtype ≠ "B" → fieldtype ≠ "J" → fieldtype ≠ "rho" →
      f.spect2interp fieldtype = .error (invalidFieldtype fieldtype)) ∧
    (0 < Nm →
      fieldtype ≠ "rho" → fieldtype ≠ "J" → fieldtype ≠ "E" → fieldtype ≠ "B" →
      f.filter_interp fieldtype direction = .error (invalidFieldtype fieldtype)) := by
  refine ⟨?_, ?_, ?_, ?_, ?_⟩
  · intro hrho hJ hE hB
    simp [Fields.erase, hrho, hJ, hE, hB]
  · intro hrho hJ
    simp [Fields.divide_by_volume, hrho, hJ]
  · intro hE hB hJ hrn hrp
    simp [Fields.interp2spect, hE, hB, hJ, hrn, hrp]
  · intro hE hB hJ hrho
    simp [Fields.spect2interp, hE, hB, hJ, hrho]
  · intro hNm hrho hJ hE hB
    obtain ⟨n, rfl⟩ : ∃ n, Nm = n + 1 := ⟨Nm - 1, by omega⟩
    rcases hcons : List.finRange (n + 1) with _ | ⟨a, t⟩
    · have hlen := congrArg List.length hcons
      simp at hlen
    · rw [Fields.filter_interp, hcons, List.foldlM_cons,
        interpGrid_filter_invalid (f.interp a) fieldtype direction hrho hJ hE hB]
      rfl

/-- A zero-valued interpolation grid, for concrete `Fields` states. -/
def zeroInterpGrid (ι : Type) : InterpolationGrid ι where
  m := 0
  invvol := fun _ => 1
  Er := fun _ => 0
  Et := fun _ => 0
  Ez := fun _ => 0
  Br := fun _ => 0
  Bt := fun _ => 0
  Bz := fun _ => 0
  Jr := fun _ => 0
  Jt := fun _ => 0
  Jz := fun _ => 0
  rho := fun _ => 0

/-- A concrete single-mode field state on a one-point grid, with identity
transformer collaborators. -/
def oneModeFields : Fields 1 1 1 where
  dt := 1
  trans := fun _ => idTransformer (Fin 1 × Fin 1)
  interp := fun _ => zeroInterpGrid (Fin 1 × Fin 1)
  spect := fun _ => SpectralGrid.init (fun _ => 0) (fun _ => 0) 0

/-- A concrete field state with zero azimuthal modes. -/
def noModeFields : Fields 1 1 0 where
  dt := 1
  trans := Fin.elim0
  interp := Fin.elim0
  spect := Fin.elim0

/-- Counterexample to C8 as stated: with zero azimuthal modes, the per-mode
loop of `filter` never runs, so the unrecognized fieldtype `"bogus"` is
silently accepted and no error is raised. -/
theorem c8_counterexample :
    noModeFields.filter_interp "bogus" "r" = Except.ok noModeFields := rfl

/-- Witness for the amended C8 at the concrete single-mode state
`oneModeFields`, exercising, besides the fully unrecognized string
`"bogus"`, strings recognized by one operation but not another:
`divide_by_volume('E')`, `interp2spect('rho')`, `spect2interp('rho_next')`. -/
theorem c8_invalid_fieldtype_witness :
    oneModeFields.erase "bogus" = .error (invalidFieldtype "bogus") ∧
    oneModeFields.divide_by_volume "E" = .error (invalidFieldtype "E") ∧
    oneModeFields.interp2spect "rho" = .error (invalidFieldtype "rho") ∧
    oneModeFields.spect2interp "rho_next" = .error (invalidFieldtype "rho_next") ∧
    oneModeFields.filter_interp "bogus" "r" = .error (invalidFieldtype "bogus") :=
  ⟨(c8_invalid_fieldtype oneModeFields "bogus" "r").1
      (by decide) (by decide) (by decide) (by decide),
    (c8_invalid_fieldtype oneModeFields "E" "r").2.1 (by decide) (by decide),
    (c8_invalid_fieldtype oneModeFields "rho" "r").2.2.1
      (by decide) (by decide) (by decide) (by decide) (by decide),
    (c8_invalid_fieldtype oneModeFields "rho_next" "r").2.2.2.1
      (by decide) (by decide) (by decide) (by decide),
    (c8_invalid_fieldtype oneModeFields "bogus" "r").2.2.2.2 (by decide)
      (by decide) (by decide) (by decide) (by decide)⟩

/-- Claim C10: `interp2spect('rho_next')` and `interp2spect('rho_prev')`
both transform the same interpolation-grid array `rho` (into `rho_next`
and `rho_prev` respectively); `spect2interp('rho')` writes the inverse
transform of the spectral `rho_next` — not `rho_prev` — into the
interpolation-grid `rho`; consequently, when the injected inverse
operators map the zero array to zero, `spect2interp('rho')` immediately
after `push_rho` overwrites the interpolation-grid `rho` with zeros. -/
theorem c10_rho_transform_endpoints {Nz Nr Nm : ℕ} (f : Fields Nz Nr Nm)
    (m : Fin Nm)
    (h1 : (f.trans m).dht0_inverse (fun _ => 0) = fun _ => 0)
    (h2 : (f.trans m).ifft (fun _ => 0) = fun _ => 0) :
    (f.interp2spect "rho_next").map (fun g : Fields Nz Nr Nm => (g.spect m).rho_next) =
      .ok ((f.trans m).interp2spect_scal ((f.interp m).rho)) ∧
    (f.interp2spect "rho_prev").map (fun g : Fields Nz Nr Nm => (g.spect m).rho_prev) =
      .ok ((f.trans m).interp2spect_scal ((f.interp m).rho)) ∧
    (f.spect2interp "rho").map (fun g : Fields Nz Nr Nm => (g.interp m).rho) =
      .ok ((f.trans m).spect2interp_scal ((f.spect m).rho_next)) ∧
    (({ f with spect := fun k => (f.spect k).push_rho }).spect2interp
        "rho").map (fun g : Fields Nz Nr Nm => (g.interp m).rho) = .ok (fun _ => (0 : CQ)) := by
  refine ⟨rfl, rfl, rfl, ?_⟩
  have hz : (f.trans m).spect2interp_scal (fun _ => 0) = fun _ => 0 := by
    unfold SpectralTransformer.spect2interp_scal
    rw [h1, h2]
  show Except.ok ((f.trans m).spect2interp_scal fun _ => 0) =
    Except.ok fun _ => (0 : CQ)
  rw [hz]

/-- Witness for C10 at the concrete single-mode state `oneModeFields`,
whose identity collaborators preserve the zero array definitionally. -/
theorem c10_rho_transform_endpoints_witness :
    ((({ oneModeFields with
          spect := fun k => (oneModeFields.spect k).push_rho }).spect2interp
        "rho").map (fun g : Fields 1 1 1 => (g.interp 0).rho)) = .ok (fun _ => (0 : CQ)) :=
  (c10_rho_transform_endpoints oneModeFields 0 rfl rfl).2.2.2
